import Mathlib

/-!
Verification development for the hello-socks repository (Go).

The file shallowly embeds the three core components of the code base:

* the credential verification cache (`Credentials.Valid` in the
  server-socks main package),
* the destination access-control engine (`newAuthenticator`,
  `resolveNames`, `authenticator.Allow`),
* the bidirectional byte relay of client-socks (`proxy.pipe`,
  `proxy.err`, `serve`).

External library calls (bcrypt comparison, murmur3 fingerprint, DNS
resolution) are passed in as explicit function parameters so that the
embedded code is executable and the theorems can be instantiated on
concrete inputs.  Go maps are embedded as association lists; where the
code iterates over a Go map (whose iteration order is unspecified) the
list order stands for one possible iteration order and theorems
quantify over it.
-/

namespace HelloSocks

/-! ### Association-list primitives standing for Go maps and go-cache -/

/-- Lookup in an association list, first match wins.  Embeds a Go map
read with its ok-flag (`v, ok := m[k]`). -/
def lookupA {β : Type} : List (String × β) → String → Option β
  | [], _ => none
  | (k, v) :: rest, key => if k = key then some v else lookupA rest key

/-- Go map read without ok-flag returns the zero value on a miss
(`hashedPW := s.htpasswd[user]` yields the empty string). -/
def lookupD (m : List (String × String)) (key : String) : String :=
  (lookupA m key).getD ""

theorem lookupA_isSome_of_mem_keys {β : Type} (m : List (String × β)) (k : String)
    (h : k ∈ m.map Prod.fst) : (lookupA m k).isSome := by
  induction m with
  | nil => simp at h
  | cons p rest ih =>
    simp only [List.map_cons, List.mem_cons] at h
    by_cases hk : p.1 = k
    · simp [lookupA, hk]
    · have : k ∈ rest.map Prod.fst := by
        rcases h with h | h
        · exact absurd h.symm hk
        · exact h
      simpa [lookupA, hk] using ih this

/-! ### Credential verification cache: `Credentials.Valid` (part_002) -/

/-- `defaultBasicAuthTTL = 90 * time.Second`, counted in seconds. -/
def defaultBasicAuthTTL : Nat := 90

/-- One entry of the `basicAuthCache` go-cache instance: the murmur3
fingerprint of the last positively verified plaintext, together with
the TTL the `Set` call was issued with. -/
structure CacheEntry where
  fp : String
  ttl : Nat
  deriving DecidableEq, Repr

/-- The mutable `basicAuthCache` store, keyed by the stored password
hash.  Insertion prepends; `lookupA` takes the first match, so a later
`Set` shadows an earlier entry exactly as go-cache `Set` overwrites. -/
def CacheMap := List (String × CacheEntry)

/-- The `Credentials` struct of server-socks. -/
structure Credentials where
  disableCaching : Bool
  htpasswd : List (String × String)

/-- Shallow embedding of `Credentials.Valid` from part_002 (server
main).  `bcryptOK h p` stands for
`nil == bcrypt.CompareHashAndPassword([]byte(h), []byte(p))` and
`murmur p` for the murmur3-64 fingerprint `string(hasher.Sum(nil))`
after `hasher.Write([]byte(p))`.  The function returns the boolean
result together with the cache state after the call; the source
mutates the package-level `basicAuthCache` instead. -/
def Credentials.Valid (bcryptOK : String → String → Bool)
    (murmur : String → String) (s : Credentials) (cache : CacheMap)
    (user password : String) : Bool × CacheMap :=
  let hashedPW := lookupD s.htpasswd user
  if s.disableCaching then
    (bcryptOK hashedPW password, cache)
  else
    match lookupA cache hashedPW with
    | none =>
      if bcryptOK hashedPW password then
        (true, (hashedPW, ⟨murmur password, defaultBasicAuthTTL⟩) :: cache)
      else
        (false, cache)
    | some cachedPass =>
      if cachedPass.fp ≠ murmur password then
        (bcryptOK hashedPW password, cache)
      else
        (true, cache)

/-- A cache state is sound when every stored fingerprint is the
fingerprint of some plaintext that the expensive comparison accepts
for that stored hash.  The empty cache is sound, and `Valid` preserves
soundness, so every cache reachable through the component is sound;
go-cache expiry only removes entries and also preserves it. -/
def CacheSound (bcryptOK : String → String → Bool)
    (murmur : String → String) (cache : CacheMap) : Prop :=
  ∀ h e, lookupA cache h = some e → ∃ p, e.fp = murmur p ∧ bcryptOK h p = true

theorem cacheSound_nil (bcryptOK : String → String → Bool)
    (murmur : String → String) : CacheSound bcryptOK murmur [] := by
  intro h e he
  simp [lookupA] at he

theorem valid_preserves_cacheSound (bcryptOK : String → String → Bool)
    (murmur : String → String) (s : Credentials) (cache : CacheMap)
    (user password : String) (hs : CacheSound bcryptOK murmur cache) :
    CacheSound bcryptOK murmur
      (Credentials.Valid bcryptOK murmur s cache user password).2 := by
  unfold Credentials.Valid
  by_cases hd : s.disableCaching
  · simpa [hd] using hs
  · simp only [hd, if_false]
    cases hc : lookupA cache (lookupD s.htpasswd user) with
    | none =>
      by_cases hb : bcryptOK (lookupD s.htpasswd user) password
      · simp only [hb, if_true]
        intro h e he
        by_cases hh : lookupD s.htpasswd user = h
        · refine ⟨password, ?_, ?_⟩
          · simp [lookupA, hh] at he
            simp [← he]
          · rw [← hh]; exact hb
        · simp only [lookupA, hh, if_false] at he
          exact hs h e he
      · simpa [hb] using hs
    | some cachedPass =>
      by_cases hm : cachedPass.fp ≠ murmur password
      · simpa [hc, hm] using hs
      · simpa [hc, hm] using hs

/-- C2: the cached verification agrees with the direct expensive
comparison on every call, for every sound cache state and every
caching mode, provided the cheap fingerprint is injective. -/
theorem Valid_equiv_bcrypt (bcryptOK : String → String → Bool)
    (murmur : String → String) (hinj : Function.Injective murmur)
    (s : Credentials) (cache : CacheMap) (user password : String)
    (hs : CacheSound bcryptOK murmur cache) :
    (Credentials.Valid bcryptOK murmur s cache user password).1
      = bcryptOK (lookupD s.htpasswd user) password := by
  unfold Credentials.Valid
  by_cases hd : s.disableCaching
  · simp [hd]
  · simp only [hd, if_false]
    cases hc : lookupA cache (lookupD s.htpasswd user) with
    | none =>
      by_cases hb : bcryptOK (lookupD s.htpasswd user) password
      · simp [hb]
      · simp [hb]
    | some cachedPass =>
      by_cases hm : cachedPass.fp ≠ murmur password
      · simp [hm]
      · push_neg at hm
        obtain ⟨p, hfp, hok⟩ := hs _ _ hc
        have hp : p = password := hinj (by rw [← hfp, hm])
        subst hp
        simp [hm, hok]

/-- Witness for C2 at a concrete input: identity fingerprint, literal
equality as the expensive comparison, empty cache. -/
theorem Valid_equiv_bcrypt_witness :
    (Credentials.Valid (fun h p => h == p) id
        ⟨false, [("alice", "pw1")]⟩ [] "alice" "pw1").1
      = (fun h p => h == p) (lookupD [("alice", "pw1")] "alice") "pw1" :=
  Valid_equiv_bcrypt (fun h p => h == p) id Function.injective_id
    ⟨false, [("alice", "pw1")]⟩ [] "alice" "pw1"
    (cacheSound_nil (fun h p => h == p) id)

/-- C10: with caching disabled the call is exactly the expensive
comparison and the shared cache is returned untouched. -/
theorem Valid_disableCaching_frame (bcryptOK : String → String → Bool)
    (murmur : String → String) (htp : List (String × String))
    (cache : CacheMap) (user password : String) :
    Credentials.Valid bcryptOK murmur ⟨true, htp⟩ cache user password
      = (bcryptOK (lookupD htp user) password, cache) := rfl

/-- C4 counterexample: a slow-path call (fingerprint mismatch) on
which the expensive comparison succeeds — it returns success but the
cache is left unchanged, so the submitted plaintext's fingerprint is
not stored.  (With real bcrypt this branch is reachable because bcrypt
truncates the plaintext at 72 bytes, so two distinct plaintexts can
both verify against one stored hash.) -/
theorem Valid_mismatch_noWrite_counterexample :
    Credentials.Valid (fun _ _ => true) id ⟨false, [("u", "h")]⟩
        [("h", ⟨"a", 90⟩)] "u" "b"
      = (true, [("h", ⟨"a", 90⟩)])
    ∧ lookupA [("h", (⟨"a", 90⟩ : CacheEntry))] "h"
        ≠ some ⟨id "b", defaultBasicAuthTTL⟩ := by
  constructor
  · rfl
  · decide

/-- C4 amended: on a cache-miss slow path a success stores the
fingerprint with the fresh default TTL before returning success while
a failure writes nothing; on a fingerprint-mismatch slow path the
expensive result is returned with the cache unchanged in either case;
hence an entry is written only after the expensive verification has
succeeded for that (hash, plaintext) pair. -/
theorem Valid_slowPath_cacheWrite (bcryptOK : String → String → Bool)
    (murmur : String → String) (s : Credentials) (cache : CacheMap)
    (user password : String) (hd : s.disableCaching = false) :
    (lookupA cache (lookupD s.htpasswd user) = none →
      (bcryptOK (lookupD s.htpasswd user) password = true →
        Credentials.Valid bcryptOK murmur s cache user password
          = (true, (lookupD s.htpasswd user,
              ⟨murmur password, defaultBasicAuthTTL⟩) :: cache))
      ∧ (bcryptOK (lookupD s.htpasswd user) password = false →
        Credentials.Valid bcryptOK murmur s cache user password
          = (false, cache)))
    ∧ (∀ e, lookupA cache (lookupD s.htpasswd user) = some e →
        e.fp ≠ murmur password →
        Credentials.Valid bcryptOK murmur s cache user password
          = (bcryptOK (lookupD s.htpasswd user) password, cache)) := by
  constructor
  · intro hmiss
    constructor
    · intro hb
      unfold Credentials.Valid
      simp [hd, hmiss, hb]
    · intro hb
      unfold Credentials.Valid
      simp [hd, hmiss, hb]
  · intro e hhit hm
    unfold Credentials.Valid
    simp [hd, hhit, hm]

/-- Witness for C4's amended statement at a concrete input: a miss
with a succeeding comparison stores the fingerprint with the default
TTL. -/
theorem Valid_slowPath_cacheWrite_witness :
    Credentials.Valid (fun h p => h == p) id ⟨false, [("alice", "pw1")]⟩
        [] "alice" "pw1"
      = (true, [("pw1", ⟨"pw1", defaultBasicAuthTTL⟩)]) :=
  ((Valid_slowPath_cacheWrite (fun h p => h == p) id
      ⟨false, [("alice", "pw1")]⟩ [] "alice" "pw1" rfl).1 rfl).1 rfl

/-! ### Destination access control: `authenticator.Allow` (part_002) -/

/-- The `Destination` struct of the destinations yaml. -/
structure Destination where
  users : List String
  ports : List Nat
  deriving DecidableEq, Repr

/-- The part of a `socks5.Request` that `Allow` inspects:
`req.DestAddr.IP.String()`, `req.DestAddr.Port`, and the optional
`req.AuthContext.Payload["Username"]` (absent key modelled as
`none`). -/
structure SocksRequest where
  destIP : String
  destPort : Nat
  username : Option String
  deriving DecidableEq, Repr

/-- Innermost decision of `Allow`, taken once a resolved ip and an
allowed port have matched: an empty user list allows anyone; with a
non-empty list a missing username is denied, and a present username is
allowed exactly when the user loop finds it. -/
def userDecision (users : List String) (uname : Option String) : Bool :=
  if users.isEmpty then true
  else
    match uname with
    | none => false
    | some u => users.contains u

/-- The `for _, allowedPort := range destination.Ports` loop: the
first port equal to the request's port returns the user decision (the
port block always returns); a port list without a match falls
through. -/
def portScan (ports : List Nat) (users : List String)
    (req : SocksRequest) : Option Bool :=
  match ports with
  | [] => none
  | p :: rest =>
    if p = req.destPort then some (userDecision users req.username)
    else portScan rest users req

/-- The `for _, ip := range ips` loop of one snapshot entry: an ip
equal to the request's destination looks the entry name up in
`sa.Destinations` and runs the port loop; a missing destination or a
port list without a match falls through to the remaining ips. -/
def ipScan (dests : List (String × Destination)) (name : String)
    (ips : List String) (req : SocksRequest) : Option Bool :=
  match ips with
  | [] => none
  | ip :: rest =>
    if ip = req.destIP then
      match lookupA dests name with
      | some destination =>
        match portScan destination.ports destination.users req with
        | some b => some b
        | none => ipScan dests name rest req
      | none => ipScan dests name rest req
    else ipScan dests name rest req

/-- The outer `for name, ips := range sa.resolvedNames` loop.  The
snapshot is a list of (name, ips) pairs whose order stands for one Go
map iteration order; a request falling through every entry is
denied. -/
def allowScan (dests : List (String × Destination))
    (resolved : List (String × List String)) (req : SocksRequest) : Bool :=
  match resolved with
  | [] => false
  | (name, ips) :: rest =>
    match ipScan dests name ips req with
    | some b => b
    | none => allowScan dests rest req

/-- The `authenticator` struct: the immutable destinations map and the
current resolution snapshot. -/
structure Authenticator where
  Destinations : List (String × Destination)
  resolvedNames : List (String × List String)

/-- Shallow embedding of `authenticator.Allow` (part_002): the boolean
`allowed` result. -/
def Authenticator.Allow (sa : Authenticator) (req : SocksRequest) : Bool :=
  allowScan sa.Destinations sa.resolvedNames req

/-- Shallow embedding of `resolveNames`: resolve every name with the
external resolver, failing the whole cycle on the first name whose
lookup fails. -/
def resolveNames (resolver : String → Option (List String)) :
    List String → Option (List (String × List String))
  | [] => some []
  | n :: rest =>
    match resolver n with
    | none => none
    | some addrs =>
      match resolveNames resolver rest with
      | none => none
      | some m => some ((n, addrs) :: m)

/-- Shallow embedding of the synchronous part of `newAuthenticator`:
collect the destination names, perform the first resolution, and fail
construction if it fails. -/
def newAuthenticator (resolver : String → Option (List String))
    (destinations : List (String × Destination)) : Option Authenticator :=
  match resolveNames resolver (destinations.map Prod.fst) with
  | none => none
  | some resolvedNames => some ⟨destinations, resolvedNames⟩

/-- One cycle of the background refresh goroutine of
`newAuthenticator`: re-resolve the captured name list; on success
replace the snapshot as a whole, on failure keep the previous snapshot
and report (the returned flag records that `log.Warn` ran). -/
def refreshCycle (resolver : String → Option (List String))
    (names : List String) (sa : Authenticator) : Authenticator × Bool :=
  match resolveNames resolver names with
  | some resolvedNames => ({ sa with resolvedNames := resolvedNames }, false)
  | none => (sa, true)

/-- The whole background goroutine of `newAuthenticator`, as the trace
of refresh attempts it performs over the policy's lifetime when the
environment would answer the k-th cycle with `resolvers k`: the body
sleeps ten seconds, runs a single `resolveNames`, updates or warns,
and returns — it contains no loop, so exactly one cycle happens. -/
def refresherTrace (resolvers : Nat → String → Option (List String))
    (names : List String) (sa : Authenticator) :
    List (Authenticator × Bool) :=
  [refreshCycle (resolvers 0) names sa]

theorem portScan_eq (ports : List Nat) (users : List String)
    (req : SocksRequest) :
    portScan ports users req
      = if req.destPort ∈ ports then some (userDecision users req.username)
        else none := by
  induction ports with
  | nil => simp [portScan]
  | cons p rest ih =>
    by_cases hp : p = req.destPort
    · simp [portScan, hp]
    · simp [portScan, hp, ih, List.mem_cons, Ne.symm hp]

theorem ipScan_eq_of_lookup (dests : List (String × Destination))
    (name : String) (d : Destination)
    (hl : lookupA dests name = some d) (ips : List String)
    (req : SocksRequest) :
    ipScan dests name ips req
      = if req.destIP ∈ ips then portScan d.ports d.users req else none := by
  induction ips with
  | nil => simp [ipScan]
  | cons ip rest ih =>
    by_cases hip : ip = req.destIP
    · subst hip
      cases hps : portScan d.ports d.users req with
      | some b => simp [ipScan, hl, hps]
      | none => simp [ipScan, hl, hps, ih]
    · simp [ipScan, hip, ih, List.mem_cons, Ne.symm hip]

theorem ipScan_eq_none_of_not_mem (dests : List (String × Destination))
    (name : String) (ips : List String) (req : SocksRequest)
    (h : req.destIP ∉ ips) : ipScan dests name ips req = none := by
  induction ips with
  | nil => simp [ipScan]
  | cons ip rest ih =>
    simp only [List.mem_cons, not_or] at h
    cases hl : lookupA dests name with
    | none => simp [ipScan, Ne.symm h.1, hl, ih h.2]
    | some d => simp [ipScan, Ne.symm h.1, hl, ih h.2]

theorem allowScan_eq_false_of_unresolved (dests : List (String × Destination))
    (resolved : List (String × List String)) (req : SocksRequest)
    (h : ∀ name ips, (name, ips) ∈ resolved → req.destIP ∉ ips) :
    allowScan dests resolved req = false := by
  induction resolved with
  | nil => simp [allowScan]
  | cons e rest ih =>
    obtain ⟨name, ips⟩ := e
    have h1 : req.destIP ∉ ips := h name ips (List.mem_cons_self _ _)
    have h2 : ∀ n i, (n, i) ∈ rest → req.destIP ∉ i :=
      fun n i hm => h n i (List.mem_cons_of_mem _ hm)
    simp [allowScan, ipScan_eq_none_of_not_mem dests name ips req h1, ih h2]

/-- C3: a destination ip absent from every resolved set is denied for
every request; for a single-entry policy (the shape of both concrete
scenarios) the decision is exactly ip-resolved and port-allowed and
the user rule (empty user set: anyone, including an absent username;
non-empty: only a present, listed username); and the svc-a and svc-b
scenarios evaluate as specified. -/
theorem Allow_spec :
    (∀ (sa : Authenticator) (req : SocksRequest),
      (∀ name ips, (name, ips) ∈ sa.resolvedNames → req.destIP ∉ ips) →
      sa.Allow req = false)
    ∧ (∀ (name : String) (users : List String) (ports : List Nat)
        (ips : List String) (req : SocksRequest),
        Authenticator.Allow ⟨[(name, ⟨users, ports⟩)], [(name, ips)]⟩ req
          = if req.destIP ∈ ips ∧ req.destPort ∈ ports then
              userDecision users req.username
            else false)
    ∧ (Authenticator.Allow ⟨[("svc-a", ⟨[], [443]⟩)], [("svc-a", ["10.0.0.5"])]⟩
        ⟨"10.0.0.5", 443, none⟩ = true
      ∧ Authenticator.Allow ⟨[("svc-a", ⟨[], [443]⟩)], [("svc-a", ["10.0.0.5"])]⟩
        ⟨"10.0.0.5", 80, none⟩ = false
      ∧ Authenticator.Allow ⟨[("svc-a", ⟨[], [443]⟩)], [("svc-a", ["10.0.0.5"])]⟩
        ⟨"10.0.0.9", 443, none⟩ = false)
    ∧ (Authenticator.Allow ⟨[("svc-b", ⟨["alice"], [22]⟩)], [("svc-b", ["10.0.0.6"])]⟩
        ⟨"10.0.0.6", 22, some "alice"⟩ = true
      ∧ Authenticator.Allow ⟨[("svc-b", ⟨["alice"], [22]⟩)], [("svc-b", ["10.0.0.6"])]⟩
        ⟨"10.0.0.6", 22, some "bob"⟩ = false
      ∧ Authenticator.Allow ⟨[("svc-b", ⟨["alice"], [22]⟩)], [("svc-b", ["10.0.0.6"])]⟩
        ⟨"10.0.0.6", 22, none⟩ = false) := by
  refine ⟨?_, ?_, ?_, ?_⟩
  · intro sa req h
    exact allowScan_eq_false_of_unresolved sa.Destinations sa.resolvedNames req h
  · intro name users ports ips req
    have hl : lookupA [(name, (⟨users, ports⟩ : Destination))] name
        = some ⟨users, ports⟩ := by simp [lookupA]
    show allowScan [(name, ⟨users, ports⟩)] [(name, ips)] req = _
    rw [allowScan, ipScan_eq_of_lookup _ _ _ hl, portScan_eq]
    by_cases hip : req.destIP ∈ ips
    · by_cases hpt : req.destPort ∈ ports
      · simp [hip, hpt, allowScan]
      · simp [hip, hpt, allowScan]
    · simp [hip, allowScan]
  · exact ⟨by decide, by decide, by decide⟩
  · exact ⟨by decide, by decide, by decide⟩

/-- Witness for C3's universally quantified part at a concrete input:
an ip outside the single resolved set is denied. -/
theorem Allow_spec_witness :
    Authenticator.Allow ⟨[("svc-a", ⟨[], [443]⟩)], [("svc-a", ["10.0.0.5"])]⟩
      ⟨"10.0.0.7", 443, none⟩ = false :=
  Allow_spec.1 ⟨[("svc-a", ⟨[], [443]⟩)], [("svc-a", ["10.0.0.5"])]⟩
    ⟨"10.0.0.7", 443, none⟩
    (by
      intro name ips h
      simp only [List.mem_singleton, Prod.mk.injEq] at h
      rw [h.2]
      decide)

/-- C8: when the first snapshot entry the scan visits matches the
request's ip and port but carries a non-empty user list that does not
admit the request's (possibly absent) username, the scan returns
denied at that entry, whatever entries remain. -/
theorem Allow_firstMatch_deny (dests : List (String × Destination))
    (name : String) (users : List String) (ports : List Nat)
    (ips : List String) (rest : List (String × List String))
    (req : SocksRequest)
    (hl : lookupA dests name = some ⟨users, ports⟩)
    (hip : req.destIP ∈ ips) (hpt : req.destPort ∈ ports)
    (hne : users ≠ [])
    (hu : ∀ u, req.username = some u → u ∉ users) :
    allowScan dests ((name, ips) :: rest) req = false := by
  have hud : userDecision users req.username = false := by
    unfold userDecision
    rw [if_neg (by simpa using hne)]
    cases huser : req.username with
    | none => rfl
    | some u =>
      have := hu u huser
      simpa using this
  rw [allowScan, ipScan_eq_of_lookup _ _ _ hl, portScan_eq]
  simp [hip, hpt, hud]

/-- Witness for C8: the first entry denies user bob, and the scan
ignores a later open entry that would on its own have allowed the very
same request. -/
theorem Allow_firstMatch_deny_witness :
    allowScan [("svc-b", ⟨["alice"], [22]⟩), ("open", ⟨[], [22]⟩)]
        [("svc-b", ["10.0.0.6"]), ("open", ["10.0.0.6"])]
        ⟨"10.0.0.6", 22, some "bob"⟩ = false
    ∧ allowScan [("svc-b", ⟨["alice"], [22]⟩), ("open", ⟨[], [22]⟩)]
        [("open", ["10.0.0.6"])]
        ⟨"10.0.0.6", 22, some "bob"⟩ = true :=
  ⟨Allow_firstMatch_deny
      [("svc-b", ⟨["alice"], [22]⟩), ("open", ⟨[], [22]⟩)]
      "svc-b" ["alice"] [22] ["10.0.0.6"] [("open", ["10.0.0.6"])]
      ⟨"10.0.0.6", 22, some "bob"⟩
      (by decide) (by decide) (by decide) (by decide)
      (by
        intro u hu
        cases hu
        decide),
    by decide⟩

/-- Any finite sequence of refresh cycles over the captured name list,
starting from a constructed authenticator.  (The source performs at
most one such cycle; quantifying over a whole sequence makes the
snapshot-key invariant below hold at every point of any lifetime.) -/
def runRefreshes (resolvers : List (String → Option (List String)))
    (names : List String) (sa : Authenticator) : Authenticator :=
  match resolvers with
  | [] => sa
  | r :: rest => runRefreshes rest names (refreshCycle r names sa).1

theorem resolveNames_keys (resolver : String → Option (List String))
    (names : List String) (snap : List (String × List String))
    (h : resolveNames resolver names = some snap) :
    snap.map Prod.fst = names := by
  induction names generalizing snap with
  | nil =>
    simp [resolveNames] at h
    simp [← h]
  | cons n rest ih =>
    unfold resolveNames at h
    cases hr : resolver n with
    | none => simp [hr] at h
    | some addrs =>
      simp only [hr] at h
      cases hm : resolveNames resolver rest with
      | none => simp [hm] at h
      | some m =>
        simp only [hm] at h
        obtain rfl := (Option.some.inj h).symm
        simp [ih m hm]

theorem refreshCycle_fields (resolver : String → Option (List String))
    (names : List String) (sa : Authenticator) :
    (refreshCycle resolver names sa).1.Destinations = sa.Destinations
    ∧ ((refreshCycle resolver names sa).1.resolvedNames.map Prod.fst = names
      ∨ (refreshCycle resolver names sa).1.resolvedNames
          = sa.resolvedNames) := by
  unfold refreshCycle
  cases hr : resolveNames resolver names with
  | none => simp
  | some snap => simp [resolveNames_keys resolver names snap hr]

theorem runRefreshes_inv (names : List String)
    (resolvers : List (String → Option (List String)))
    (sa : Authenticator) (h : sa.resolvedNames.map Prod.fst = names) :
    (runRefreshes resolvers names sa).Destinations = sa.Destinations
    ∧ (runRefreshes resolvers names sa).resolvedNames.map Prod.fst
        = names := by
  induction resolvers generalizing sa with
  | nil => exact ⟨rfl, h⟩
  | cons r rest ih =>
    obtain ⟨hd, hsnap⟩ := refreshCycle_fields r names sa
    have hkeys : (refreshCycle r names sa).1.resolvedNames.map Prod.fst
        = names := by
      rcases hsnap with hk | hk
      · exact hk
      · rw [hk]; exact h
    obtain ⟨ih1, ih2⟩ := ih (refreshCycle r names sa).1 hkeys
    exact ⟨by rw [runRefreshes, ih1, hd], by rw [runRefreshes, ih2]⟩

/-- C9: for every authenticator that construction returns and every
sequence of refresh cycles, the snapshot's name list stays exactly the
destination map's key list, so the destination lookup `Allow` performs
for a name taken from the snapshot always succeeds. -/
theorem snapshot_keys_invariant (resolver : String → Option (List String))
    (dests : List (String × Destination)) (sa0 : Authenticator)
    (h : newAuthenticator resolver dests = some sa0)
    (resolvers : List (String → Option (List String))) :
    (runRefreshes resolvers (dests.map Prod.fst) sa0).resolvedNames.map
        Prod.fst = dests.map Prod.fst
    ∧ ∀ name ips,
        (name, ips) ∈ (runRefreshes resolvers (dests.map Prod.fst)
          sa0).resolvedNames →
        (lookupA (runRefreshes resolvers (dests.map Prod.fst)
          sa0).Destinations name).isSome := by
  unfold newAuthenticator at h
  cases hr : resolveNames resolver (dests.map Prod.fst) with
  | none => simp [hr] at h
  | some snap =>
    simp only [hr] at h
    obtain rfl := (Option.some.inj h).symm
    have hkeys : (Authenticator.mk dests snap).resolvedNames.map Prod.fst
        = dests.map Prod.fst := resolveNames_keys _ _ _ hr
    obtain ⟨hD, hK⟩ := runRefreshes_inv (dests.map Prod.fst) resolvers _ hkeys
    refine ⟨hK, ?_⟩
    intro name ips hm
    have : name ∈ (runRefreshes resolvers (dests.map Prod.fst)
        (Authenticator.mk dests snap)).resolvedNames.map Prod.fst :=
      List.mem_map.mpr ⟨(name, ips), hm, rfl⟩
    rw [hK] at this
    rw [hD]
    exact lookupA_isSome_of_mem_keys dests name this

/-- Witness for C9 at a concrete input: one destination, a resolver
answering with a single address, then one failing refresh cycle. -/
theorem snapshot_keys_invariant_witness :
    (runRefreshes [fun _ => none]
        ([("a", (⟨[], [1]⟩ : Destination))].map Prod.fst)
        ⟨[("a", ⟨[], [1]⟩)], [("a", ["10.0.0.1"])]⟩).resolvedNames.map
      Prod.fst = [("a", (⟨[], [1]⟩ : Destination))].map Prod.fst :=
  (snapshot_keys_invariant (fun _ => some ["10.0.0.1"])
    [("a", ⟨[], [1]⟩)] ⟨[("a", ⟨[], [1]⟩)], [("a", ["10.0.0.1"])]⟩
    rfl [fun _ => none]).1

/-- C5 counterexample: the background goroutine of `newAuthenticator`
contains no loop — over the whole lifetime of the policy its trace
holds exactly one refresh attempt, however many cycles the environment
would have answered. -/
theorem refresherTrace_single_counterexample :
    (refresherTrace (fun _ _ => some ["10.0.0.1"]) ["a"]
        ⟨[("a", ⟨[], [1]⟩)], [("a", ["10.0.0.1"])]⟩).length = 1
    ∧ ¬ 2 ≤ (refresherTrace (fun _ _ => some ["10.0.0.1"]) ["a"]
        ⟨[("a", ⟨[], [1]⟩)], [("a", ["10.0.0.1"])]⟩).length := by
  constructor
  · rfl
  · decide

/-- C5 amended: the refresher performs a single re-resolution, ten
seconds after construction; if it succeeds the snapshot is replaced as
a whole and nothing is reported, if it fails the previous snapshot is
retained unchanged and the failure is reported without being fatal;
no further cycles occur. -/
theorem refreshCycle_spec (resolver : String → Option (List String))
    (names : List String) (sa : Authenticator) :
    (∀ snap, resolveNames resolver names = some snap →
      refreshCycle resolver names sa
        = ({ sa with resolvedNames := snap }, false))
    ∧ (resolveNames resolver names = none →
      refreshCycle resolver names sa = (sa, true))
    ∧ refresherTrace (fun _ => resolver) names sa
        = [refreshCycle resolver names sa] := by
  refine ⟨?_, ?_, rfl⟩
  · intro snap hs
    unfold refreshCycle
    rw [hs]
  · intro hs
    unfold refreshCycle
    rw [hs]

/-- Witness for C5's amended statement: a succeeding cycle replaces
the snapshot wholesale and reports no failure. -/
theorem refreshCycle_spec_witness :
    refreshCycle (fun _ => some ["10.0.0.2"]) ["a"]
        ⟨[("a", ⟨[], [1]⟩)], [("a", ["10.0.0.1"])]⟩
      = (⟨[("a", ⟨[], [1]⟩)], [("a", ["10.0.0.2"])]⟩, false) :=
  (refreshCycle_spec (fun _ => some ["10.0.0.2"]) ["a"]
    ⟨[("a", ⟨[], [1]⟩)], [("a", ["10.0.0.1"])]⟩).1
    [("a", ["10.0.0.2"])] rfl

/-! ### Bidirectional relay: `proxy` of client-socks.go -/

/-- A Go error value as the relay distinguishes them: `io.EOF` (clean
end-of-stream) versus any other error, carried with its message. -/
inductive GoErr where
  | eof
  | err (msg : String)
  deriving DecidableEq, Repr

/-- The `proxy` struct of client-socks.go, plus the observables the
claims speak about: `closeCount` counts executions of `close(p.wait)`
(a second execution is a runtime fault in Go, closing a closed
channel), and `logs` records the `log.Warn(message, err)` calls issued
by `proxy.err`.  `waitClosed` is the state of the one-shot `wait`
channel and `erred` the `uint32` flag. -/
structure ProxyState where
  sentBytes : Nat
  receivedBytes : Nat
  erred : Bool
  waitClosed : Bool
  closeCount : Nat
  logs : List (String × GoErr)
  deriving DecidableEq, Repr

/-- The proxy as `serve` builds it: zero counters, flag down, channel
open. -/
def initProxy : ProxyState := ⟨0, 0, false, false, 0, []⟩

/-- Embedding of `proxy.err` with one invocation taken as an atomic
whole: return at once if the flag is already up; otherwise warn unless
the error is `io.EOF`, raise the flag, and close the `wait` channel
unless it is already closed. -/
def ProxyState.err (p : ProxyState) (message : String) (e : GoErr) :
    ProxyState :=
  if p.erred then p
  else
    let p1 := if e = GoErr.eof then p
              else { p with logs := p.logs ++ [(message, e)] }
    let p2 := { p1 with erred := true }
    if p2.waitClosed then p2
    else { p2 with waitClosed := true, closeCount := p2.closeCount + 1 }

/-- What the endpoints and the context do during one iteration of the
copy loop of `proxy.pipe`: the context error polled at the top, the
outcome of `src.Read` (a byte count or an error, `io.EOF` included),
and the error of `dst.Write` (consulted only after a successful
read). -/
structure PipeIter where
  ctxErr : Option String
  read : Option Nat
  readErr : Option GoErr
  writeErr : Option String
  deriving DecidableEq, Repr

/-- Embedding of `proxy.pipe`, driven by a finite script of
iterations: a context error or a read or write failure invokes
`proxy.err` with the source's message and ends the loop; a successful
iteration adds the written byte count to the direction's counter
(`isLocal` selects `sentBytes`, as in the two `go p.pipe` calls of
`serve`).  An exhausted script leaves the loop mid-flight. -/
def ProxyState.pipe (p : ProxyState) (isLocal : Bool) :
    List PipeIter → ProxyState
  | [] => p
  | it :: rest =>
    match it.ctxErr with
    | some ce => p.err "context error" (GoErr.err ce)
    | none =>
      match it.readErr with
      | some e => p.err "Read failed" e
      | none =>
        match it.writeErr with
        | some we => p.err "Write failed" (GoErr.err we)
        | none =>
          let n := it.read.getD 0
          let p1 := if isLocal then { p with sentBytes := p.sentBytes + n }
                    else { p with receivedBytes := p.receivedBytes + n }
          p1.pipe isLocal rest

/-- What `serve` reports once the gate releases: the two counters,
read with atomic loads (the wall-clock duration and connection id of
the log line carry no relay state and are elided). -/
structure ServeResult where
  sentBytes : Nat
  receivedBytes : Nat
  deriving DecidableEq, Repr

/-- The result `serve` delivers for a finished session. -/
def ProxyState.result (p : ProxyState) : ServeResult :=
  ⟨p.sentBytes, p.receivedBytes⟩

/-- C7: a relay whose source yields one 100-byte chunk and then a
clean end-of-stream, against a destination accepting every write,
finishes with `sentBytes = 100`, an empty warn log (the end-of-stream
is not reported as an error), the flag up and the gate closed exactly
once; the other direction, failing once the endpoints are being torn
down, changes nothing.  The delivered result is `(100, 0)`. -/
theorem relay_100_eof :
    ((initProxy.pipe true
        [⟨none, some 100, none, none⟩, ⟨none, none, some GoErr.eof, none⟩]).pipe
      false
        [⟨none, none, some (GoErr.err "use of closed network connection"),
          none⟩])
      = ⟨100, 0, true, true, 1, []⟩
    ∧ ((initProxy.pipe true
        [⟨none, some 100, none, none⟩, ⟨none, none, some GoErr.eof, none⟩]).pipe
      false
        [⟨none, none, some (GoErr.err "use of closed network connection"),
          none⟩]).result
      = ⟨100, 0⟩ :=
  ⟨rfl, rfl⟩

/-- C6 counterexample: two sessions that differ only in the error
which triggered shutdown deliver byte-for-byte the same result to the
caller, so the triggering error does not appear in (and cannot be
recovered from) the delivered result; the `proxy` struct has no field
retaining it. -/
theorem result_forgets_error_counterexample :
    (initProxy.pipe true [⟨none, some 100, none, none⟩,
        ⟨none, none, some (GoErr.err "connection reset by peer"), none⟩]).result
      = (initProxy.pipe true [⟨none, some 100, none, none⟩,
        ⟨none, none, some (GoErr.err "broken pipe"), none⟩]).result
    ∧ GoErr.err "connection reset by peer" ≠ GoErr.err "broken pipe" := by
  exact ⟨rfl, by decide⟩

/-- C6 amended: only the first invocation of the shutdown routine
reports its error, to the warn log — and reports nothing for a clean
end-of-stream; later invocations are complete no-ops; the result
delivered to the caller is unchanged by the invocation, holding only
the byte counters. -/
theorem err_first_reports (p : ProxyState) (message : String) (e : GoErr) :
    (p.erred = true → p.err message e = p)
    ∧ (p.erred = false →
        (p.err message e).erred = true
        ∧ (p.err message e).logs
            = p.logs ++ (if e = GoErr.eof then [] else [(message, e)])
        ∧ (p.err message e).result = p.result) := by
  constructor
  · intro h
    simp [ProxyState.err, h]
  · intro h
    by_cases he : e = GoErr.eof
    · by_cases hw : p.waitClosed
      · simp [ProxyState.err, h, he, hw, ProxyState.result]
      · simp [ProxyState.err, h, he, hw, ProxyState.result]
    · by_cases hw : p.waitClosed
      · simp [ProxyState.err, h, he, hw, ProxyState.result]
      · simp [ProxyState.err, h, he, hw, ProxyState.result]

/-- Witness for C6's amended statement at a concrete mid-session
state. -/
theorem err_first_reports_witness :
    (ProxyState.err ⟨5, 7, false, false, 0, []⟩ "Read failed"
        (GoErr.err "broken pipe")).erred = true
    ∧ (ProxyState.err ⟨5, 7, false, false, 0, []⟩ "Read failed"
        (GoErr.err "broken pipe")).logs
        = [] ++ (if GoErr.err "broken pipe" = GoErr.eof then []
            else [("Read failed", GoErr.err "broken pipe")])
    ∧ (ProxyState.err ⟨5, 7, false, false, 0, []⟩ "Read failed"
        (GoErr.err "broken pipe")).result
        = ProxyState.result ⟨5, 7, false, false, 0, []⟩ :=
  (err_first_reports ⟨5, 7, false, false, 0, []⟩ "Read failed"
    (GoErr.err "broken pipe")).2 rfl

/-- The primitive machine steps one invocation of `proxy.err` compiles
to, at the grain of its Go memory and channel operations: the atomic
load of `p.erred`, the warn call, the atomic store, the readiness poll
of the `select`, and the `close(p.wait)` of its `default` branch.  The
poll and the close are distinct steps — a `select` with a `default`
branch first checks whether `<-p.wait` is ready and only then runs the
branch body, and the other goroutine can be scheduled in between.
Likewise the load and the store of `p.erred` are distinct steps, not a
compare-and-swap. -/
inductive ErrOp where
  | loadErred
  | warn
  | storeErred
  | pollWait
  | closeWait
  deriving DecidableEq, Repr

/-- The body of `proxy.err` as its step sequence. -/
def errProg : List ErrOp := [.loadErred, .warn, .storeErred, .pollWait,
  .closeWait]

/-- One goroutine invoking `proxy.err`: its pending steps and the
arguments of the invocation. -/
structure ErrThread where
  prog : List ErrOp
  message : String
  e : GoErr
  deriving DecidableEq, Repr

/-- One machine step of an invoking goroutine.  The two early returns
of the source (flag already up; channel already closed) drop the
remaining steps. -/
def ErrThread.step (t : ErrThread) (p : ProxyState) :
    ProxyState × ErrThread :=
  match t.prog with
  | [] => (p, t)
  | op :: rest =>
    match op with
    | .loadErred =>
      if p.erred then (p, { t with prog := [] })
      else (p, { t with prog := rest })
    | .warn =>
      (if t.e = GoErr.eof then p
       else { p with logs := p.logs ++ [(t.message, t.e)] },
       { t with prog := rest })
    | .storeErred => ({ p with erred := true }, { t with prog := rest })
    | .pollWait =>
      if p.waitClosed then (p, { t with prog := [] })
      else (p, { t with prog := rest })
    | .closeWait =>
      ({ p with waitClosed := true, closeCount := p.closeCount + 1 },
       { t with prog := rest })

/-- Interleaved execution of the two direction goroutines' `err`
invocations, under a schedule choosing which goroutine performs the
next step (`true` picks the first). -/
def errRace (sched : List Bool) (p : ProxyState) (a b : ErrThread) :
    ProxyState :=
  match sched with
  | [] => p
  | c :: rest =>
    if c then
      match a.step p with
      | (p1, a1) => errRace rest p1 a1 b
    else
      match b.step p with
      | (p1, b1) => errRace rest p1 a b1

/-- C1: the completion gate is not closed exactly once on every
termination order.  Both goroutines can pass the `loadErred` check and
the `select` readiness poll before either stores the flag or closes
the channel; under that schedule `close(p.wait)` executes twice — in
Go, a close of an already-closed channel, a runtime fault that kills
the process.  A fully serialized order does close the gate exactly
once, so the defect is confined to interleaved invocations, which the
load-then-store flag (not a compare-and-swap) fails to exclude. -/
theorem err_race_double_close :
    (errRace [true, false, true, true, true, false, false, false, true,
        false]
      initProxy
      ⟨errProg, "Read failed", GoErr.err "connection reset by peer"⟩
      ⟨errProg, "Write failed", GoErr.err "broken pipe"⟩).closeCount = 2
    ∧ (errRace [true, true, true, true, true, false, false, false, false,
        false]
      initProxy
      ⟨errProg, "Read failed", GoErr.err "connection reset by peer"⟩
      ⟨errProg, "Write failed", GoErr.err "broken pipe"⟩).closeCount = 1 := by
  exact ⟨rfl, rfl⟩
